import Mathlib

/-!
# Verification of the image-titler processor

A shallow embedding, in Lean 4, of the core of `src/image_titler/processor.py`:
the font resolver (`_find_system_font`, `score_font`), the geometry constants
(overlay bar height, margin, viewport), the text fitter (the binary search in
`_add_text`), the overlay-bar compositing step (`_add_overlay_bar`), the
resize-and-crop step (`_resize_and_crop`), and the exception flow of
`ImageProcessor.process`.

Numeric conventions: Python `int` is modelled by `Nat`/`Int`.  Python's `/`
produces IEEE-754 double-precision floats; where the source computes
`int(expr)` of a float expression whose rounding matters, we emulate the
double arithmetic exactly: every double arising here is a dyadic rational
that an integer multiple of `2 ^ (-60)` represents exactly, so doubles are
carried as their value times `2 ^ 60` in `ℕ`, and each float operation is an
exact integer computation followed by `roundDoubleFx` (round to nearest,
53-bit significand, ties to even — exactly IEEE-754 binary64 for the
magnitudes in range `[2 ^ (-8), 2 ^ 53)` that occur here).
-/

/-- Round the fraction `a / b` (with `b > 0`) to the nearest natural number,
ties to even.  This is Python's built-in `round` on a non-negative value, and
also the tie-breaking rule IEEE-754 binary64 uses for the significand. -/
def rheNat (a b : ℕ) : ℕ :=
  let q := a / b
  let r := a % b
  if 2 * r < b then q
  else if b < 2 * r then q + 1
  else if q % 2 = 0 then q else q + 1

/-- Base-2 logarithm (floor) by fuelled structural recursion, so that it
reduces inside `decide`.  `log2Fuel fuel n = ⌊log₂ n⌋` whenever `n < 2 ^ fuel`. -/
def log2Fuel : ℕ → ℕ → ℕ
  | 0, _ => 0
  | fuel + 1, n => if n ≤ 1 then 0 else log2Fuel fuel (n / 2) + 1

/-- Round the positive rational `num / den` to the nearest IEEE-754 binary64
value (round to nearest, ties to even) and return that double exactly, scaled
by `2 ^ 60`.  Valid for values in `[2 ^ (-8), 2 ^ 53)`; the value `0` maps
to `0`. -/
def roundDoubleFx (num den : ℕ) : ℕ :=
  if num = 0 then 0
  else
    let i := num * 2 ^ 60 / den
    if i = 0 then 0
    else
      -- binade of num/den: 2 ^ e ≤ num/den < 2 ^ (e+1), here via e + 60 = ⌊log₂ i⌋
      let e60 := log2Fuel 128 i
      -- significand k ∈ [2 ^ 52, 2 ^ 53]: round num/den · 2 ^ (52 - e) ties-even
      let k := rheNat (num * 2 ^ (52 + 60 - e60)) den
      -- the double is k · 2 ^ (e - 52); scaled by 2 ^ 60 that is k · 2 ^ (e + 8)
      k * 2 ^ (e60 + 8) / 2 ^ 60

/-- The IEEE-754 binary64 value nearest `0.1` (the meaning of the literal
`0.1` in the Python source), scaled by `2 ^ 60`. -/
def fl01 : ℕ := roundDoubleFx 1 10

/-- Source `_add_overlay_bar` line 243 / `_add_logo` line 259 / `_add_text` line 304:
`overlay_height = int(self.input_image.height * self.OVERLAY_HEIGHT_RATIO)`
with `OVERLAY_HEIGHT_RATIO = 0.1`: the double product `h * 0.1`, truncated
by `int` (truncation = floor for these non-negative values). -/
def overlayHeightOf (h : ℕ) : ℕ :=
  roundDoubleFx (h * fl01) (2 ^ 60) / 2 ^ 60

/-- Source `_add_logo` line 260 / `_add_text` line 305:
`margin = int(overlay_height * self.MARGIN_RATIO)` with `MARGIN_RATIO = 0.1`. -/
def marginOf (h : ℕ) : ℕ :=
  roundDoubleFx (overlayHeightOf h * fl01) (2 ^ 60) / 2 ^ 60

/-- Source `_add_text` line 306: `max_text_height = int(overlay_height * 0.5)`.
The literal `0.5` is exactly `2 ^ 59 / 2 ^ 60`. -/
def maxTextHeightOf (h : ℕ) : ℕ :=
  roundDoubleFx (overlayHeightOf h * 2 ^ 59) (2 ^ 60) / 2 ^ 60

/-- Source `_add_overlay_bar` line 245: `alpha = int(255 * (1 - transparency / 100))`:
`transparency / 100` is a double division, `1 - ...` and `255 * ...` are double
operations, and `int` truncates. -/
def overlayAlpha (transparency : ℕ) : ℕ :=
  let a := roundDoubleFx transparency 100
  let b := roundDoubleFx (2 ^ 60 - a) (2 ^ 60)
  roundDoubleFx (255 * b) (2 ^ 60) / 2 ^ 60

/-- The spec's formula for the overlay alpha, following its words:
`alpha = round(255 × (1 − transparency%/100))` with Python's `round`
(nearest, ties to even), over exact arithmetic: for `t ≤ 100` this is
`round(255 · (100 - t) / 100)`. -/
def specOverlayAlpha (t : ℕ) : ℕ :=
  rheNat (255 * (100 - t)) 100

/-- The spec's formula for the overlay bar height, following its words:
`round(canvas.height × 0.10)` with Python's `round`, over exact arithmetic. -/
def specOverlayHeightOf (h : ℕ) : ℕ :=
  rheNat h 10

/-- The spec's formula for the margin, following its words:
`round(overlay_height × 0.10)` with Python's `round`, over exact arithmetic
(the overlay height itself is the one the code computes). -/
def specMarginOf (h : ℕ) : ℕ :=
  rheNat (overlayHeightOf h) 10

/-- Source `ImageProcessor.TARGET_WIDTH` (line 12). -/
def TARGET_WIDTH : ℕ := 1920

/-- Source `ImageProcessor.TARGET_HEIGHT` (line 13). -/
def TARGET_HEIGHT : ℕ := 1080

/-- Source `_add_logo` line 274 / `_add_text` line 309:
`viewport_start_x = (self.TARGET_WIDTH - self.TARGET_HEIGHT) // 2`.
Note that the source computes this from the fixed class constants, not from
the dimensions of the canvas being processed.  `Int.fdiv` is Python's
flooring `//`. -/
def viewportStartX : ℤ :=
  ((TARGET_WIDTH : ℤ) - (TARGET_HEIGHT : ℤ)).fdiv 2

/-- Source `_add_text` line 310: `viewport_end_x = viewport_start_x + self.TARGET_HEIGHT`. -/
def viewportEndX : ℤ :=
  viewportStartX + (TARGET_HEIGHT : ℤ)

/-- The viewport pair `(viewport_start_x, viewport_end_x)` that `_add_text`
uses when processing a canvas of dimensions `w × h`.  The source ignores the
canvas and uses the class constants; the arguments record that indifference. -/
def addTextViewport (_w _h : ℕ) : ℤ × ℤ :=
  (viewportStartX, viewportEndX)

/-- The viewport's left edge following the spec's words: a centered column of
width equal to the canvas height, with left edge `(canvas.width − canvas.height)/2`. -/
def specViewportLeft (w h : ℕ) : ℤ :=
  ((w : ℤ) - (h : ℤ)).fdiv 2

/-- The viewport's right edge following the spec's words: left edge plus the
canvas height. -/
def specViewportRight (w h : ℕ) : ℤ :=
  specViewportLeft w h + (h : ℤ)

/-- Source `_resize_and_crop` lines 224-225:
`ratio = max(TARGET_WIDTH / w, TARGET_HEIGHT / h)`, in exact arithmetic. -/
def resizeRatio (w h : ℕ) : ℚ :=
  max ((TARGET_WIDTH : ℚ) / (w : ℚ)) ((TARGET_HEIGHT : ℚ) / (h : ℚ))

/-- Source `_resize_and_crop` lines 227-228:
`new_size = (int(w * ratio), int(h * ratio))`, in exact arithmetic (the values
are non-negative, so `int` truncation is `floor`). -/
def newSizeOf (w h : ℕ) : ℤ × ℤ :=
  (⌊(w : ℚ) * resizeRatio w h⌋, ⌊(h : ℚ) * resizeRatio w h⌋)

/-- Source `_resize_and_crop` lines 234-237: the crop box
`left = (new_w - TARGET_WIDTH) // 2`, `top = (new_h - TARGET_HEIGHT) // 2`,
`right = left + TARGET_WIDTH`, `bottom = top + TARGET_HEIGHT`. -/
def cropBox (w h : ℕ) : ℤ × ℤ × ℤ × ℤ :=
  let left := ((newSizeOf w h).1 - (TARGET_WIDTH : ℤ)).fdiv 2
  let top := ((newSizeOf w h).2 - (TARGET_HEIGHT : ℤ)).fdiv 2
  (left, top, left + (TARGET_WIDTH : ℤ), top + (TARGET_HEIGHT : ℤ))

/-- The dimensions of the image `_resize_and_crop` returns (line 240):
PIL's `Image.crop(box)` always returns an image of exactly the box's size
`(right - left, bottom - top)`, padding any part of the box that lies outside
the source image. -/
def resizeAndCropDims (w h : ℕ) : ℤ × ℤ :=
  match cropBox w h with
  | (left, top, right, bottom) => (right - left, bottom - top)

/-- Source `_add_text` line 346, the feasibility test of one probed font size:
`text_height <= max_text_height and potential_text_left >= text_left_min_x`,
where `(text_width, text_height)` comes from the measurement function
(`draw.textbbox`, lines 339-341) and
`potential_text_left = text_right_x - text_width` (line 344). -/
def textFeasible (measure : ℕ → ℕ × ℕ) (maxTextHeight : ℕ)
    (textRightX textLeftMinX : ℤ) (size : ℕ) : Bool :=
  decide (((measure size).2 : ℤ) ≤ (maxTextHeight : ℤ)) &&
    decide (textLeftMinX ≤ textRightX - ((measure size).1 : ℤ))

/-- The `while min_size <= max_size` binary-search loop of `_add_text`
(lines 331-351), by fuelled structural recursion so that it evaluates inside
`decide`.  Each iteration probes `mid = (lo + hi) // 2`; a feasible probe is
remembered as best-so-far and raises the lower bound, an infeasible probe
lowers the upper bound.  All sizes stay `≥ 1` (the loop starts at
`min_size = 1`), so natural subtraction in `mid - 1` agrees with Python.
With `fuel > hi + 1 - lo` the fuel never runs out (each iteration strictly
shrinks `hi + 1 - lo`, and with fuel `0` the loop answers like `lo > hi`). -/
def fitLoop (feasible : ℕ → Bool) : ℕ → ℕ → ℕ → Option ℕ → Option ℕ
  | 0, _, _, best => best
  | fuel + 1, lo, hi, best =>
    if lo ≤ hi then
      let mid := (lo + hi) / 2
      if feasible mid then fitLoop feasible fuel (mid + 1) hi (some mid)
      else fitLoop feasible fuel lo (mid - 1) best
    else best

/-- The font size `_add_text` selects: the binary search over
`[min_size, max_size] = [1, max_text_height * 2]` (lines 326-329), starting
with no best-so-far.  `none` models the `current_font_size is None` branch
(line 353), which raises `RuntimeError("Could not find suitable font size
for text")` — the spec's `NoFittingSize`. -/
def addTextFitSize (feasible : ℕ → Bool) (maxTextHeight : ℕ) : Option ℕ :=
  fitLoop feasible (2 * maxTextHeight + 1) 1 (2 * maxTextHeight) none

/-- Python's `str.lower()` (all names occurring here are ASCII, where
`Char.toLower` agrees with Python). -/
def strLower (s : String) : String :=
  ⟨s.data.map Char.toLower⟩

/-- Python's `str.endswith(suffix)`. -/
def strEndsWith (s suffix : String) : Bool :=
  decide (suffix.data <:+ s.data)

/-- Python's `str.replace(c, repl)` for a single-character pattern `c`:
every occurrence of `c` is replaced by `repl`. -/
def replaceChar (c : Char) (repl : String) (s : String) : String :=
  ⟨s.data.foldr (fun x acc => if x = c then repl.data ++ acc else x :: acc) []⟩

/-- Case-insensitive substring test: Python's `needle in hay` on
`str.lower()` values (the lowering is done at call sites, as in the source). -/
def strContains (hay needle : String) : Bool :=
  decide (needle.data <:+: hay.data)

/-- Source `_find_system_font` lines 55-63: the `style_priorities` list. -/
def stylePriorities : List String :=
  ["regular", "rg", "normal", "book", "medium", "roman", "standard"]

/-- Source `_find_system_font` lines 66-78: the `variant_styles` list. -/
def variantStyles : List String :=
  ["italic", "oblique", "bold", "light", "thin", "heavy", "black",
   "condensed", "expanded", "narrow", "wide"]

/-- Source `score_font` (lines 113-135), a pure function of the requested family
name and the candidate's file name: an exact (case-insensitive) match of
`<family>.ttf` / `<family>.otf` scores `1000`; otherwise the first
`style_priorities` keyword found contributes `100 - index`, every
`variant_styles` keyword present subtracts `50`, and the file-name length is
subtracted. -/
def scoreFont (fontName fontFile : String) : ℤ :=
  let fontLower := strLower fontFile
  if fontLower = strLower fontName ++ ".ttf" ∨ fontLower = strLower fontName ++ ".otf" then
    1000
  else
    let styleBonus : ℤ :=
      match stylePriorities.findIdx? (fun st => strContains fontLower st) with
      | some i => 100 - (i : ℤ)
      | none => 0
    let variantPenalty : ℤ :=
      50 * ((variantStyles.filter (fun st => strContains fontLower st)).length : ℤ)
    styleBonus - variantPenalty - (fontLower.length : ℤ)

/-- The ranking by score of a candidate set, as a descending list of scores
(`matching_fonts.sort(key=lambda x: score_font(x[0]), reverse=True)`,
line 138): the scores of the files, sorted in non-increasing order. -/
def sortedScores (fontName : String) (files : List String) : List ℤ :=
  (files.map (scoreFont fontName)).insertionSort (fun a b => b ≤ a)

/-- Python's `str.split()` with no separator: split on runs of whitespace and
drop empty fields (splitting at every whitespace character and filtering out
the empty pieces is equivalent). -/
def pySplit (s : String) : List String :=
  ((s.data.splitOnP (fun c => c.isWhitespace)).filter (fun w => !w.isEmpty)).map
    (fun w => String.mk w)

/-- The errors the font-resolution path can raise.  `fontNotFound` is the
source's `FontError` (lines 107-110): it carries the requested family name
and the hint to set `IMAGE_TITLER_DEBUG=1` for detailed font-search output
(the full Python message interpolates the family name, between single
quotes, ahead of the hint).  `indexOutOfRange` is the `IndexError` that
`font_name.split()[0]` (line 50) raises when the split is empty. -/
inductive ResolveError where
  | fontNotFound (familyName : String) (hint : String)
  | indexOutOfRange
  deriving DecidableEq, Repr

/-- The hint text of the `FontError` message (line 109). -/
def debugHint : String :=
  "Try setting IMAGE_TITLER_DEBUG=1 for more detailed font search information."

/-- Source `_find_system_font` lines 45-52, the `name_variations` list:
original name, spaces removed, spaces to underscores, spaces to hyphens,
first word only, all words concatenated.  Building the fifth entry,
`font_name.split()[0]`, raises `IndexError` when `split()` is empty, i.e.
when the name has no non-whitespace character; the whole list construction
fails in that case, before any directory is examined. -/
def nameVariations (fontName : String) : Except ResolveError (List String) :=
  match pySplit fontName with
  | [] => .error .indexOutOfRange
  | w :: _ =>
    .ok [fontName,
         replaceChar ' ' "" fontName,
         replaceChar ' ' "_" fontName,
         replaceChar ' ' "-" fontName,
         w,
         String.join (pySplit fontName)]

/-- Source `_find_system_font` lines 95-102, the per-file filter of the directory
walk: keep a file iff its name ends (case-insensitively) in `.ttf` or `.otf`
and some name variation is a case-insensitive substring of it. -/
def matchesFamily (variations : List String) (file : String) : Bool :=
  (strEndsWith (strLower file) ".ttf" || strEndsWith (strLower file) ".otf") &&
    variations.any (fun v => strContains (strLower file) (strLower v))

/-- Source `_find_system_font` (lines 26-149) over an abstract filesystem: `files`
is the list of `(file name, absolute path)` pairs the recursive walk of the
platform font directories enumerates, in walk order.  Build the name
variations (possibly raising `IndexError`), filter the files, fail with
`FontError` if nothing matched, otherwise sort by score (descending, Python's
stable `sort(key=..., reverse=True)`) and return the path of the best
candidate. -/
def findSystemFont (fontName : String) (files : List (String × String)) :
    Except ResolveError String :=
  match nameVariations fontName with
  | .error e => .error e
  | .ok variations =>
    let matchingFonts := files.filter (fun fp => matchesFamily variations fp.1)
    match matchingFonts.insertionSort
        (fun a b => scoreFont fontName b.1 ≤ scoreFont fontName a.1) with
    | [] => .error (.fontNotFound fontName debugHint)
    | best :: _ => .ok best.2

/-- Source `_add_text` lines 292-296: the font-resolution step, with Python's
truthiness for the optional font name (`None` and `""` are falsy and fall
back to family `"Arial"`). -/
def addTextFontResolution (fontName : Option String)
    (files : List (String × String)) : Except ResolveError String :=
  match fontName with
  | some n => if n = "" then findSystemFont "Arial" files else findSystemFont n files
  | none => findSystemFont "Arial" files

/-- PIL's `MULDIV255` macro (an exact `round(a * b / 255)` for
`a, b ∈ [0, 255]`): `tmp = a * b + 128; ((tmp >> 8) + tmp) >> 8`. -/
def muldiv255 (a b : ℕ) : ℕ :=
  ((a * b + 128) / 256 + (a * b + 128)) / 256

/-- PIL's per-channel paste blending with mask value `m`:
`BLEND(m, orig, src) = MULDIV255(orig, 255 - m) + MULDIV255(src, m)`. -/
def blendChannel (m orig src : ℕ) : ℕ :=
  muldiv255 orig (255 - m) + muldiv255 src m

/-- An in-memory canvas after color normalization to RGB: dimensions plus an
RGB pixel function (channel values in `[0, 255]`). -/
structure Canvas where
  width : ℕ
  height : ℕ
  pix : ℕ → ℕ → ℕ × ℕ × ℕ

/-- Source `_add_overlay_bar` (lines 242-252): composite a uniform white bar of
height `overlay_height = int(h * 0.1)` across the full width at the top,
with alpha `int(255 * (1 - transparency / 100))`;
`self.input_image.paste(overlay, (0, 0), overlay)` blends every channel of
every pixel under the bar against white with that alpha as mask, and leaves
all other pixels untouched. -/
def addOverlayBar (c : Canvas) (transparency : ℕ) : Canvas :=
  let a := overlayAlpha transparency
  { c with
    pix := fun x y =>
      if y < overlayHeightOf c.height then
        match c.pix x y with
        | (r, g, b) => (blendChannel a r 255, blendChannel a g 255, blendChannel a b 255)
      else c.pix x y }

/-- Source `ImageProcessor.process` (lines 161-187) restricted to a request with no
logo, no text, `crop_to_hd = False` and `blur = 0`: of the pipeline steps
only the overlay bar runs (color normalization to RGB is the identity on the
RGB canvases modelled here). -/
def processBarOnly (c : Canvas) (transparency : ℕ) : Canvas :=
  addOverlayBar c transparency

/-- Python truthiness of an optional string (`if text:` / `if font_name:`):
`None` and the empty string are falsy, every other string is truthy. -/
def pyTruthy (s : Option String) : Bool :=
  match s with
  | none => false
  | some t => !(t == "")

/-- The exception kinds relevant to `process`: Python's `RuntimeError`, the
source's `FontError` subclass, `IndexError`, and `OSError` (the class PIL
raises on I/O failures). -/
inductive PyExcKind where
  | runtimeErr
  | fontErr
  | indexErr
  | osErr
  deriving DecidableEq, Repr

/-- A Python exception: its class and its message. -/
structure PyExc where
  kind : PyExcKind
  message : String
  deriving DecidableEq, Repr

/-- The exception escaping `_add_text` (lines 291-354), given the outcome of
font resolution and whether the binary search found a size:
a `FontError` from `_find_system_font` is caught and re-raised as
`FontError(f"Font error: {e}")` (lines 297-298); an `IndexError` from the
name-variation step is not a `FontError` and propagates unchanged; with a
resolved font but no fitting size, line 354 raises
`RuntimeError("Could not find suitable font size for text")`. -/
def addTextExc (fontRes : Except ResolveError String) (fitSize : Option ℕ) :
    Option PyExc :=
  match fontRes with
  | .error (.fontNotFound name _) =>
    some ⟨.fontErr, "Font error: Font " ++ name ++ " not found in system fonts. " ++ debugHint⟩
  | .error .indexOutOfRange => some ⟨.indexErr, "list index out of range"⟩
  | .ok _ =>
    match fitSize with
    | none => some ⟨.runtimeErr, "Could not find suitable font size for text"⟩
    | some _ => none

/-- The exception `ImageProcessor.__init__` (lines 19-22) raises when the
input image cannot be opened: `RuntimeError(f"Failed to open image: {e}")`. -/
def openImageExc (openOk : Bool) (openMsg : String) : Option PyExc :=
  if openOk then none else some ⟨.runtimeErr, "Failed to open image: " ++ openMsg⟩

/-- The exception escaping `ImageProcessor.process` (lines 161-187), given
the exception (if any) of the text step and of the save step.  The inner
`except FontError as e: raise FontError(str(e))` (lines 182-183) re-raises a
`FontError` with the same kind and message, but that re-raise — like every
other exception in the body — is caught by the outer `except Exception`
(line 186), which wraps it as
`RuntimeError(f"Image processing failed: {e}")`. -/
def processExc (textExc : Option PyExc) (saveExc : Option PyExc) : Option PyExc :=
  match textExc with
  | some e => some ⟨.runtimeErr, "Image processing failed: " ++ e.message⟩
  | none =>
    match saveExc with
    | some e => some ⟨.runtimeErr, "Image processing failed: " ++ e.message⟩
    | none => none

set_option maxRecDepth 8000

/-! ## Helper lemmas -/

theorem fitLoop_succ_feasible {feasible : ℕ → Bool} {f lo hi : ℕ} {best : Option ℕ}
    (h : lo ≤ hi) (hf : feasible ((lo + hi) / 2) = true) :
    fitLoop feasible (f + 1) lo hi best =
      fitLoop feasible f ((lo + hi) / 2 + 1) hi (some ((lo + hi) / 2)) := by
  simp [fitLoop, h, hf]

theorem fitLoop_succ_infeasible {feasible : ℕ → Bool} {f lo hi : ℕ} {best : Option ℕ}
    (h : lo ≤ hi) (hf : feasible ((lo + hi) / 2) = false) :
    fitLoop feasible (f + 1) lo hi best =
      fitLoop feasible f lo ((lo + hi) / 2 - 1) best := by
  simp [fitLoop, h, hf]

theorem fitLoop_exit {feasible : ℕ → Bool} {f lo hi : ℕ} {best : Option ℕ}
    (h : ¬ lo ≤ hi) :
    fitLoop feasible (f + 1) lo hi best = best := by
  simp [fitLoop, h]

/-- Main invariant of the `_add_text` binary search: under a monotone
feasibility predicate, `fitLoop` run with
  * enough fuel,
  * `1 ≤ lo`, `lo ≤ N + 1`, `hi ≤ N`,
  * `best = none` only at the very start (`lo = 1`),
  * `best = some b` only for a feasible `b` with `b + 1 = lo`, and
  * every size in `(hi, N]` already known infeasible
returns `some r` exactly for the largest feasible size `r ∈ [1, N]` and
`none` exactly when no size in `[1, N]` is feasible. -/
theorem fitLoop_correct (feasible : ℕ → Bool) (N : ℕ)
    (mono : ∀ s t, s ≤ t → feasible t = true → feasible s = true) :
    ∀ (fuel lo hi : ℕ) (best : Option ℕ),
      hi + 1 - lo ≤ fuel →
      1 ≤ lo → lo ≤ N + 1 → hi ≤ N →
      (best = none → lo = 1) →
      (∀ b, best = some b → b + 1 = lo ∧ 1 ≤ b ∧ feasible b = true) →
      (∀ s, hi < s → s ≤ N → feasible s = false) →
      ((∀ r, fitLoop feasible fuel lo hi best = some r →
          1 ≤ r ∧ r ≤ N ∧ feasible r = true ∧
          ∀ s, s ≤ N → feasible s = true → s ≤ r) ∧
       (fitLoop feasible fuel lo hi best = none →
          ∀ s, 1 ≤ s → s ≤ N → feasible s = false)) := by
  intro fuel
  induction fuel with
  | zero =>
    intro lo hi best hfuel hlo1 hloN hhiN hnone hsome hinf
    constructor
    · intro r hr
      simp only [fitLoop] at hr
      obtain ⟨hb1, hb2, hb3⟩ := hsome r hr
      refine ⟨hb2, by omega, hb3, ?_⟩
      intro s hsN hfs
      by_contra hcon
      push_neg at hcon
      have hfalse := hinf s (by omega) hsN
      rw [hfalse] at hfs
      cases hfs
    · intro hr s hs1 hsN
      simp only [fitLoop] at hr
      have hlo := hnone hr
      exact hinf s (by omega) hsN
  | succ f ih =>
    intro lo hi best hfuel hlo1 hloN hhiN hnone hsome hinf
    by_cases hcmp : lo ≤ hi
    · have hmid1 : lo ≤ (lo + hi) / 2 := by omega
      have hmid2 : (lo + hi) / 2 ≤ hi := by omega
      cases hfeas : feasible ((lo + hi) / 2) with
      | true =>
        rw [fitLoop_succ_feasible hcmp hfeas]
        apply ih
        · omega
        · omega
        · omega
        · exact hhiN
        · intro hcontra; cases hcontra
        · intro b hb
          rw [Option.some.injEq] at hb
          subst hb
          exact ⟨rfl, by omega, hfeas⟩
        · exact hinf
      | false =>
        rw [fitLoop_succ_infeasible hcmp hfeas]
        apply ih
        · omega
        · exact hlo1
        · exact hloN
        · omega
        · exact hnone
        · exact hsome
        · intro s hs hsN
          by_cases hshi : s ≤ hi
          · cases hfs : feasible s with
            | true =>
              have := mono ((lo + hi) / 2) s (by omega) hfs
              rw [hfeas] at this
              cases this
            | false => rfl
          · exact hinf s (by omega) hsN
    · rw [fitLoop_exit hcmp]
      constructor
      · intro r hr
        obtain ⟨hb1, hb2, hb3⟩ := hsome r hr
        refine ⟨hb2, by omega, hb3, ?_⟩
        intro s hsN hfs
        by_contra hcon
        push_neg at hcon
        have hfalse := hinf s (by omega) hsN
        rw [hfalse] at hfs
        cases hfs
      · intro hr s hs1 hsN
        have hlo := hnone hr
        exact hinf s (by omega) hsN

/-! ## Claim theorems -/

/-- C1: for every measurement function and viewport bounds whose induced
feasibility (`text_height ≤ max_text_height` and right-aligned left edge
`≥ text_left_min_x`) is monotone in the font size, the binary search of
`_add_text` over `[1, 2 · max_text_height]` returns (it is a total function)
the largest feasible size in that range, remembering the best feasible probe,
and yields `none` — the `NoFittingSize` failure of line 354 — exactly when no
size in the range is feasible. -/
theorem addText_binarySearch_correct (measure : ℕ → ℕ × ℕ) (maxTextHeight : ℕ)
    (textRightX textLeftMinX : ℤ)
    (mono : ∀ s t, s ≤ t →
        textFeasible measure maxTextHeight textRightX textLeftMinX t = true →
        textFeasible measure maxTextHeight textRightX textLeftMinX s = true) :
    (∀ r, addTextFitSize (textFeasible measure maxTextHeight textRightX textLeftMinX)
        maxTextHeight = some r →
        1 ≤ r ∧ r ≤ 2 * maxTextHeight ∧
        textFeasible measure maxTextHeight textRightX textLeftMinX r = true ∧
        ∀ s, s ≤ 2 * maxTextHeight →
          textFeasible measure maxTextHeight textRightX textLeftMinX s = true → s ≤ r) ∧
    (addTextFitSize (textFeasible measure maxTextHeight textRightX textLeftMinX)
        maxTextHeight = none ↔
        ∀ s, 1 ≤ s → s ≤ 2 * maxTextHeight →
          textFeasible measure maxTextHeight textRightX textLeftMinX s = false) := by
  have key := fitLoop_correct
    (textFeasible measure maxTextHeight textRightX textLeftMinX) (2 * maxTextHeight) mono
    (2 * maxTextHeight + 1) 1 (2 * maxTextHeight) none
    (by omega) le_rfl (by omega) le_rfl (fun _ => rfl)
    (fun b hb => by cases hb)
    (fun s h1 h2 => absurd (h1.trans_le h2) (lt_irrefl _))
  constructor
  · exact key.1
  · constructor
    · exact key.2
    · intro hall
      cases hres : addTextFitSize (textFeasible measure maxTextHeight textRightX textLeftMinX)
          maxTextHeight with
      | none => rfl
      | some r =>
        obtain ⟨h1, h2, h3, _⟩ := key.1 r hres
        rw [hall r h1 h2] at h3
        cases h3

/-- Witness for C1: with the measurement `size ↦ (size, size)`,
`max_text_height = 5` and viewport `[0, 100]`, feasibility is monotone, the
search returns `some 5`, and the theorem then yields that `5` is feasible. -/
theorem addText_binarySearch_correct_witness :
    textFeasible (fun s => (s, s)) 5 100 0 5 = true := by
  have mono : ∀ s t, s ≤ t →
      textFeasible (fun s => (s, s)) 5 100 0 t = true →
      textFeasible (fun s => (s, s)) 5 100 0 s = true := by
    intro s t hst ht
    simp only [textFeasible, Bool.and_eq_true, decide_eq_true_eq] at ht ⊢
    omega
  have h := (addText_binarySearch_correct (fun s => (s, s)) 5 100 0 mono).1 5 (by decide)
  exact h.2.2.1

/-- C2: the exception kind the collaborator receives.  The source defines a
dedicated `FontError` and even re-raises it as a `FontError` inside
`process` (lines 182-183), but the outer `except Exception` (lines 186-187)
wraps every escaping exception — font resolution failure, no fitting size,
save failure — in a `RuntimeError`, the same kind the constructor uses for an
unopenable image: the collaborator cannot distinguish the kinds. -/
theorem process_errorKinds_collapse :
    (processExc (addTextExc
        (.error (.fontNotFound "NoSuchFont123" debugHint)) none) none).map PyExc.kind =
      some PyExcKind.runtimeErr ∧
    (processExc (addTextExc (.ok "/usr/share/fonts/Arial.ttf") none) none).map PyExc.kind =
      some PyExcKind.runtimeErr ∧
    (processExc none (some ⟨PyExcKind.osErr, "cannot write file"⟩)).map PyExc.kind =
      some PyExcKind.runtimeErr ∧
    (openImageExc false "no such file or directory").map PyExc.kind =
      some PyExcKind.runtimeErr :=
  ⟨rfl, rfl, rfl, rfl⟩

theorem overlayFloor_lo :
    ∀ d < 551, overlayHeightOf d = d / 10 ∧ marginOf d = d / 10 / 10 := by decide

theorem overlayFloor_hi :
    ∀ d < 550, overlayHeightOf (551 + d) = (551 + d) / 10 ∧
      marginOf (551 + d) = (551 + d) / 10 / 10 := by decide

/-- C3 (counterexample): the code truncates with `int`, while the claim says
`round`: on a 1080-tall canvas the margin is `int(10.8) = 10`, not
`round(10.8) = 11`; likewise on a 15-tall canvas the overlay height is
`int(1.5) = 1`, not `round(1.5) = 2`. -/
theorem overlayGeometry_round_counterexample :
    marginOf 1080 ≠ specMarginOf 1080 ∧ marginOf 1080 = 10 ∧ specMarginOf 1080 = 11 ∧
    overlayHeightOf 15 ≠ specOverlayHeightOf 15 ∧
    overlayHeightOf 15 = 1 ∧ specOverlayHeightOf 15 = 2 := by
  refine ⟨by decide, rfl, rfl, by decide, rfl, rfl⟩

/-- C3 (amended): for every canvas height up to 1100, the overlay bar height
is `int(h × 0.1)`, i.e. `h / 10` rounded down, and the margin is
`int(overlay_height × 0.1)`, i.e. a further division by 10 rounded down; in
particular on a 1080-tall canvas the overlay height is 108 and the margin
is 10. -/
theorem overlayGeometry_truncation (h : ℕ) (hh : h ≤ 1100) :
    overlayHeightOf h = h / 10 ∧ marginOf h = h / 10 / 10 ∧
    overlayHeightOf 1080 = 108 ∧ marginOf 1080 = 10 := by
  have key : ∀ n, n ≤ 1100 → overlayHeightOf n = n / 10 ∧ marginOf n = n / 10 / 10 := by
    intro n hn
    rcases Nat.lt_or_ge n 551 with hlt | hge
    · exact overlayFloor_lo n hlt
    · have h2 := overlayFloor_hi (n - 551) (by omega)
      have heq : 551 + (n - 551) = n := by omega
      rw [heq] at h2
      exact h2
  have h1080 := key 1080 (by norm_num)
  exact ⟨(key h hh).1, (key h hh).2, by rw [h1080.1], by rw [h1080.2]⟩

/-- Witness for C3 (amended), at the 1080-tall canvas. -/
theorem overlayGeometry_truncation_witness :
    overlayHeightOf 1080 = 1080 / 10 ∧ marginOf 1080 = 1080 / 10 / 10 ∧
    overlayHeightOf 1080 = 108 ∧ marginOf 1080 = 10 :=
  overlayGeometry_truncation 1080 (by norm_num)

/-- C4: for every input of positive dimensions, `_resize_and_crop` produces a
canvas of exactly `TARGET_WIDTH × TARGET_HEIGHT = 1920 × 1080` (the crop box
is `TARGET_WIDTH` wide and `TARGET_HEIGHT` tall by construction, and PIL's
`crop` returns exactly the box), and in exact arithmetic the cover-fit scale
`max(1920/w, 1080/h)` makes the resized image at least as large as the
target in both dimensions. -/
theorem resizeAndCrop_targetDims (w h : ℕ) (hw : 0 < w) (hh : 0 < h) :
    resizeAndCropDims w h = ((TARGET_WIDTH : ℤ), (TARGET_HEIGHT : ℤ)) ∧
    (TARGET_WIDTH : ℤ) ≤ (newSizeOf w h).1 ∧
    (TARGET_HEIGHT : ℤ) ≤ (newSizeOf w h).2 := by
  refine ⟨?_, ?_, ?_⟩
  · simp only [resizeAndCropDims, cropBox]
    rw [Prod.mk.injEq]
    constructor <;> ring
  · have hw' : (w : ℚ) ≠ 0 := Nat.cast_ne_zero.mpr hw.ne'
    have key : ((TARGET_WIDTH : ℤ) : ℚ) ≤ (w : ℚ) * resizeRatio w h := by
      have h1 : ((TARGET_WIDTH : ℤ) : ℚ) = (w : ℚ) * ((TARGET_WIDTH : ℚ) / (w : ℚ)) := by
        field_simp
      rw [h1]
      exact mul_le_mul_of_nonneg_left (le_max_left _ _) (by positivity)
    exact Int.le_floor.mpr key
  · have hh' : (h : ℚ) ≠ 0 := Nat.cast_ne_zero.mpr hh.ne'
    have key : ((TARGET_HEIGHT : ℤ) : ℚ) ≤ (h : ℚ) * resizeRatio w h := by
      have h1 : ((TARGET_HEIGHT : ℤ) : ℚ) = (h : ℚ) * ((TARGET_HEIGHT : ℚ) / (h : ℚ)) := by
        field_simp
      rw [h1]
      exact mul_le_mul_of_nonneg_left (le_max_right _ _) (by positivity)
    exact Int.le_floor.mpr key

/-- Witness for C4, at the spec's scenario: a 3000 × 2000 input. -/
theorem resizeAndCrop_targetDims_witness :
    resizeAndCropDims 3000 2000 = ((TARGET_WIDTH : ℤ), (TARGET_HEIGHT : ℤ)) ∧
    (TARGET_WIDTH : ℤ) ≤ (newSizeOf 3000 2000).1 ∧
    (TARGET_HEIGHT : ℤ) ≤ (newSizeOf 3000 2000).2 :=
  resizeAndCrop_targetDims 3000 2000 (by norm_num) (by norm_num)

theorem overlayAlpha_bounds_aux :
    ∀ t < 101, specOverlayAlpha t - 1 ≤ overlayAlpha t ∧
      overlayAlpha t ≤ specOverlayAlpha t := by decide

/-- C5 (counterexample): the code computes the alpha with `int` truncation of
a double product, while the claim says `round`: at `transparency = 2` the
double `255 * (1 - 2/100)` is `249.89999999999999857…`, so the code's alpha
is 249 while `round(249.9) = 250`. -/
theorem overlayAlpha_round_counterexample :
    overlayAlpha 2 ≠ specOverlayAlpha 2 ∧
    overlayAlpha 2 = 249 ∧ specOverlayAlpha 2 = 250 :=
  ⟨by decide, rfl, rfl⟩

/-- C5 (amended): the overlay-bar alpha is `int(255 × (1 − t/100))` computed
in double precision and truncated: for every transparency `t ∈ [0, 100]` it
equals `round(255 × (1 − t/100))` or that value minus one, and the endpoints
are exact — `t = 100` gives alpha 0 (invisible bar) and `t = 0` gives
alpha 255 (fully opaque white bar). -/
theorem overlayAlpha_truncation (t : ℕ) (ht : t ≤ 100) :
    specOverlayAlpha t - 1 ≤ overlayAlpha t ∧ overlayAlpha t ≤ specOverlayAlpha t ∧
    overlayAlpha 100 = 0 ∧ overlayAlpha 0 = 255 := by
  have h := overlayAlpha_bounds_aux t (by omega)
  exact ⟨h.1, h.2, rfl, rfl⟩

/-- Witness for C5 (amended), at `transparency = 100`. -/
theorem overlayAlpha_truncation_witness :
    specOverlayAlpha 100 - 1 ≤ overlayAlpha 100 ∧
    overlayAlpha 100 ≤ specOverlayAlpha 100 ∧
    overlayAlpha 100 = 0 ∧ overlayAlpha 0 = 255 :=
  overlayAlpha_truncation 100 (by norm_num)

/-- C9 (counterexample): the claim says the viewport is centered with respect
to the canvas being processed, but `_add_text`/`_add_logo` compute it from
the fixed class constants: on a 1000 × 500 canvas (possible when cropping is
disabled) the code's viewport is `(420, 1500)`, not the claim's
`((1000-500)/2, (1000-500)/2 + 500) = (250, 750)`. -/
theorem viewport_canvas_counterexample :
    addTextViewport 1000 500 ≠ (specViewportLeft 1000 500, specViewportRight 1000 500) ∧
    addTextViewport 1000 500 = (420, 1500) ∧
    (specViewportLeft 1000 500, specViewportRight 1000 500) = (250, 750) := by
  refine ⟨by decide, by decide, by decide⟩

/-- C9 (amended): the viewport used to place the logo and bound the text is
computed from the fixed 1920 × 1080 target constants, independent of the
canvas dimensions: left edge `(TARGET_WIDTH − TARGET_HEIGHT) // 2 = 420` and
right edge `420 + TARGET_HEIGHT = 1500` for every canvas. -/
theorem viewport_fixed_constants (w h w' h' : ℕ) :
    addTextViewport w h = (viewportStartX, viewportEndX) ∧
    addTextViewport w h = addTextViewport w' h' ∧
    viewportStartX = 420 ∧ viewportEndX = 1500 :=
  ⟨rfl, rfl, by decide, by decide⟩

/-- C6: font candidate scoring is deterministic and order-independent — the
score is a pure function of the family and the file name, so the ranking by
score (the descending sorted list of scores of `matching_fonts.sort`) is the
same for any two enumeration orders of the same candidate set; and for family
`"Arial"`, `"Arial.ttf"` (exact match, 1000) ranks above `"Arial-Bold.ttf"`
(no preferred style, one variant keyword, length 14: score −64), which ranks
above `"Arial Narrow Italic.ttf"` (two variant keywords, length 23:
score −123). -/
theorem scoreFont_order_independent (fontName : String) (l₁ l₂ : List String)
    (hperm : l₁.Perm l₂) :
    sortedScores fontName l₁ = sortedScores fontName l₂ ∧
    scoreFont "Arial" "Arial.ttf" = 1000 ∧
    scoreFont "Arial" "Arial-Bold.ttf" = -64 ∧
    scoreFont "Arial" "Arial Narrow Italic.ttf" = -123 ∧
    scoreFont "Arial" "Arial Narrow Italic.ttf" < scoreFont "Arial" "Arial-Bold.ttf" ∧
    scoreFont "Arial" "Arial-Bold.ttf" < scoreFont "Arial" "Arial.ttf" := by
  refine ⟨?_, by decide, by decide, by decide, by decide, by decide⟩
  unfold sortedScores
  haveI ht : IsTotal ℤ (fun a b => b ≤ a) := ⟨fun a b => le_total b a⟩
  haveI htr : IsTrans ℤ (fun a b => b ≤ a) := ⟨fun _ _ _ hab hbc => le_trans hbc hab⟩
  haveI ha : IsAntisymm ℤ (fun a b => b ≤ a) := ⟨fun _ _ hab hba => le_antisymm hba hab⟩
  exact List.eq_of_perm_of_sorted
    (((List.perm_insertionSort _ _).trans (hperm.map _)).trans
      (List.perm_insertionSort _ _).symm)
    (List.sorted_insertionSort _ _) (List.sorted_insertionSort _ _)

/-- Witness for C6: two enumeration orders of the same three candidates. -/
theorem scoreFont_order_independent_witness :
    sortedScores "Arial" ["Arial.ttf", "Arial-Bold.ttf", "Arial Narrow Italic.ttf"] =
      sortedScores "Arial" ["Arial Narrow Italic.ttf", "Arial-Bold.ttf", "Arial.ttf"] ∧
    scoreFont "Arial" "Arial.ttf" = 1000 ∧
    scoreFont "Arial" "Arial-Bold.ttf" = -64 ∧
    scoreFont "Arial" "Arial Narrow Italic.ttf" = -123 ∧
    scoreFont "Arial" "Arial Narrow Italic.ttf" < scoreFont "Arial" "Arial-Bold.ttf" ∧
    scoreFont "Arial" "Arial-Bold.ttf" < scoreFont "Arial" "Arial.ttf" :=
  scoreFont_order_independent "Arial"
    ["Arial.ttf", "Arial-Bold.ttf", "Arial Narrow Italic.ttf"]
    ["Arial Narrow Italic.ttf", "Arial-Bold.ttf", "Arial.ttf"] (by decide)

/-- C7 (counterexample): the claim quantifies over every family name, but for
a family name that is non-empty whitespace the resolver raises `IndexError`
from `font_name.split()[0]` before the match test can fail — not the
`FontError` carrying the name and hint — even though no file matches (here:
no files at all). -/
theorem findSystemFont_whitespace_counterexample :
    findSystemFont " " [] ≠ .error (.fontNotFound " " debugHint) ∧
    findSystemFont " " [] = .error .indexOutOfRange := by
  refine ⟨?_, rfl⟩
  intro hc
  rw [show findSystemFont " " [] = .error .indexOutOfRange from rfl] at hc
  simp at hc

/-- C7 (amended): for every family name containing at least one
non-whitespace word, if no enumerated font file both has a `.ttf`/`.otf`
extension (case-insensitively) and contains a name variant as
case-insensitive substring, then `_find_system_font` fails with the
`FontError` carrying the family name and the hint to enable verbose
diagnostic output — it never returns a path. -/
theorem findSystemFont_notFound (fontName : String) (files : List (String × String))
    (hword : pySplit fontName ≠ [])
    (hnomatch : ∀ variations, nameVariations fontName = Except.ok variations →
        ∀ fp ∈ files, matchesFamily variations fp.1 = false) :
    findSystemFont fontName files = .error (.fontNotFound fontName debugHint) := by
  obtain ⟨w, ws, hs⟩ : ∃ w ws, pySplit fontName = w :: ws := by
    cases hs : pySplit fontName with
    | nil => exact absurd hs hword
    | cons w ws => exact ⟨w, ws, rfl⟩
  have hv : nameVariations fontName =
      .ok [fontName, replaceChar ' ' "" fontName, replaceChar ' ' "_" fontName,
           replaceChar ' ' "-" fontName, w, String.join (pySplit fontName)] := by
    unfold nameVariations
    rw [hs]
  have hfil : files.filter (fun fp =>
      matchesFamily [fontName, replaceChar ' ' "" fontName,
        replaceChar ' ' "_" fontName, replaceChar ' ' "-" fontName, w,
        String.join (pySplit fontName)] fp.1) = [] :=
    List.filter_eq_nil_iff.mpr
      (fun fp hfp => by simp [hnomatch _ hv fp hfp])
  unfold findSystemFont
  rw [hv]
  dsimp only
  rw [hfil]
  rfl

/-- Witness for C7 (amended): the spec's scenario, family `"NoSuchFont123"`
with no font files enumerated. -/
theorem findSystemFont_notFound_witness :
    findSystemFont "NoSuchFont123" [] =
      .error (.fontNotFound "NoSuchFont123" debugHint) :=
  findSystemFont_notFound "NoSuchFont123" [] (by decide)
    (fun _ _ fp hfp => by simp at hfp)

theorem splitOnP_all_white {l : List Char}
    (h : ∀ c ∈ l, c.isWhitespace = true) :
    ∀ w ∈ l.splitOnP (fun c => c.isWhitespace), w = [] := by
  induction l with
  | nil =>
    intro w hw
    rw [List.splitOnP_nil] at hw
    simpa using hw
  | cons c cs ih =>
    intro w hw
    rw [List.splitOnP_cons, h c (List.mem_cons_self c cs)] at hw
    simp only [if_true] at hw
    rcases List.mem_cons.mp hw with hw | hw
    · exact hw
    · exact ih (fun d hd => h d (List.mem_cons_of_mem c hd)) w hw

theorem pySplit_eq_nil {s : String}
    (h : ∀ c ∈ s.data, c.isWhitespace = true) : pySplit s = [] := by
  unfold pySplit
  have hfil : (s.data.splitOnP (fun c => c.isWhitespace)).filter (fun w => !w.isEmpty) = [] := by
    apply List.filter_eq_nil_iff.mpr
    intro w hw
    rw [splitOnP_all_white h w hw]
    simp
  rw [hfil]
  rfl

/-- C10: for every non-empty but all-whitespace font family name, supplied
together with text (so the text step runs), font resolution fails with the
`IndexError` of `font_name.split()[0]` — before any directory is searched
(the file list is arbitrary and unexamined) — and not with `FontError`. -/
theorem whitespaceFontName_indexError (txt name : String)
    (files : List (String × String))
    (htxt : txt ≠ "") (hname : name ≠ "")
    (hws : ∀ c ∈ name.data, c.isWhitespace = true) :
    pyTruthy (some txt) = true ∧
    addTextFontResolution (some name) files = .error .indexOutOfRange := by
  constructor
  · simp [pyTruthy, htxt]
  · have hv : nameVariations name = .error .indexOutOfRange := by
      unfold nameVariations
      rw [pySplit_eq_nil hws]
    unfold addTextFontResolution
    dsimp only
    rw [if_neg hname]
    unfold findSystemFont
    rw [hv]

/-- Witness for C10: text `"Quarterly Report"` with the single-space font
name, over a non-empty file list. -/
theorem whitespaceFontName_indexError_witness :
    pyTruthy (some "Quarterly Report") = true ∧
    addTextFontResolution (some " ") [("Arial.ttf", "/a/Arial.ttf")] =
      .error .indexOutOfRange :=
  whitespaceFontName_indexError "Quarterly Report" " " [("Arial.ttf", "/a/Arial.ttf")]
    (by decide) (by decide) (by decide)

theorem blendFullAlpha (o : ℕ) : blendChannel 255 o 255 = 255 := by
  simp [blendChannel, muldiv255]

/-- C8: processing with no logo, no text, no cropping, no blur and
`transparency = 0` changes exactly the overlay-bar band: the alpha is 255,
so every pixel of the canvas in a row above the overlay-bar height is
blended fully to opaque white, and every pixel below the band keeps its
input value. -/
theorem processBarOnly_frame_effect (c : Canvas) (x y : ℕ)
    (_hx : x < c.width) (_hy : y < c.height) :
    (processBarOnly c 0).width = c.width ∧
    (processBarOnly c 0).height = c.height ∧
    (processBarOnly c 0).pix x y =
      (if y < overlayHeightOf c.height then (255, 255, 255) else c.pix x y) := by
  refine ⟨rfl, rfl, ?_⟩
  have ha : overlayAlpha 0 = 255 := rfl
  simp only [processBarOnly, addOverlayBar, ha]
  by_cases hb : y < overlayHeightOf c.height
  · rw [if_pos hb, if_pos hb]
    rcases hpix : c.pix x y with ⟨r, g, b⟩
    simp [blendFullAlpha]
  · rw [if_neg hb, if_neg hb]

/-- Witness for C8: a 4 × 30 canvas (overlay height 3): the pixel at
`(0, 0)` becomes opaque white, the pixel at `(2, 20)` is unchanged. -/
theorem processBarOnly_frame_effect_witness :
    (processBarOnly ⟨4, 30, fun x y => (x, y, 7)⟩ 0).pix 0 0 = (255, 255, 255) ∧
    (processBarOnly ⟨4, 30, fun x y => (x, y, 7)⟩ 0).pix 2 20 = (2, 20, 7) := by
  constructor
  · have h := (processBarOnly_frame_effect ⟨4, 30, fun x y => (x, y, 7)⟩ 0 0
      (by norm_num) (by norm_num)).2.2
    rw [h]
    decide
  · have h := (processBarOnly_frame_effect ⟨4, 30, fun x y => (x, y, 7)⟩ 2 20
      (by norm_num) (by norm_num)).2.2
    rw [h]
    decide

/-- Witness for C9 (amended), at a 1000 × 500 canvas against the HD canvas. -/
theorem viewport_fixed_constants_witness :
    addTextViewport 1000 500 = (viewportStartX, viewportEndX) ∧
    addTextViewport 1000 500 = addTextViewport 1920 1080 ∧
    viewportStartX = 420 ∧ viewportEndX = 1500 :=
  viewport_fixed_constants 1000 500 1920 1080
